import Mathlib

/-!
Verification development for the image-to-webp bulk converter
(`src/main.rs`).  The program is embedded shallowly: Unix paths become a
structure of an absoluteness flag plus a component list; the filesystem,
the image decoder and the WebP encoder — external collaborators of the
program — become an explicit environment record of result-returning
functions; `f64` arithmetic is idealised over `ℚ` with the source's
rounding modes made explicit.
-/

/-- A Unix path as the Rust `Path` component model used by the program:
an absoluteness flag and the list of normal components. -/
structure FsPath where
  abs : Bool
  comps : List String
  deriving DecidableEq, Repr

/-- `PathBuf::join`: joining an absolute path replaces the receiver,
joining a relative path appends its components. -/
def joinP (p q : FsPath) : FsPath :=
  if q.abs then q else ⟨p.abs, p.comps ++ q.comps⟩

/-- Component-wise prefix removal, the core of `Path::strip_prefix`. -/
def stripComps : List String → List String → Option (List String)
  | [], rest => some rest
  | _ :: _, [] => none
  | b :: bs, p :: ps => if b = p then stripComps bs ps else none

/-- `Path::strip_prefix`: succeeds when the base's absoluteness agrees and
its components are a prefix; the remainder is a relative path. -/
def stripPathOf (p base : FsPath) : Option FsPath :=
  if base.abs = p.abs then
    (stripComps base.comps p.comps).map (fun r => ⟨false, r⟩)
  else none

/-- Position of the last `'.'` in a character list (accumulator form). -/
def lastDotAux : List Char → Nat → Option Nat → Option Nat
  | [], _, acc => acc
  | c :: rest, i, acc =>
      lastDotAux rest (i + 1) (if c = '.' then some i else acc)

/-- `Path::extension` on one file name: the part after the last dot,
none when there is no dot or the only dot is leading. -/
def extOfName (name : String) : Option String :=
  match lastDotAux name.toList 0 none with
  | none => none
  | some 0 => none
  | some i => some (String.mk (name.toList.drop (i + 1)))

/-- `PathBuf::set_extension` on one file name: drop the old extension if
any, then append a dot and the new extension. -/
def setExtCore (name : String) (ext : String) : String :=
  match lastDotAux name.toList 0 none with
  | none => name ++ "." ++ ext
  | some 0 => name ++ "." ++ ext
  | some i => String.mk (name.toList.take i) ++ "." ++ ext

/-- `set_extension` acting on the last component; a path without a file
name is left unchanged, as in Rust. -/
def setExtComps : List String → String → List String
  | [], _ => []
  | [c], e => [setExtCore c e]
  | c :: c2 :: rest, e => c :: setExtComps (c2 :: rest) e

/-- `PathBuf::set_extension` on a whole path. -/
def setExtPath (p : FsPath) (ext : String) : FsPath :=
  ⟨p.abs, setExtComps p.comps ext⟩

/-- `Path::extension` on a whole path (extension of the file name). -/
def pathExtension (p : FsPath) : Option String :=
  p.comps.getLast?.bind extOfName

/-- `Path::display` rendering, used for the result's path fields. -/
def displayPath (p : FsPath) : String :=
  (if p.abs then "/" else "") ++ String.intercalate "/" p.comps

/-- `get_output_path` from the source: strip `input_dir` from
`input_path` (falling back to `input_path` itself when it is not a
prefix), join onto `output_dir`, and set the extension to `webp`. -/
def get_output_path (input_path input_dir output_dir : FsPath) : FsPath :=
  let rel := (stripPathOf input_path input_dir).getD input_path
  setExtPath (joinP output_dir rel) "webp"

/-- The fixed supported-extension set `SUPPORTED_EXTENSIONS`. -/
def SUPPORTED_EXTENSIONS : List String :=
  ["jpg", "jpeg", "png", "gif", "bmp", "tiff", "tif"]

/-- ASCII-lowercase a string, as `str::to_lowercase` does on these
extension strings. -/
def lowerStr (s : String) : String := String.mk (s.toList.map Char.toLower)

/-- The scanner's per-entry extension test: the file's extension,
lowercased, is in the supported set; files without an extension fail. -/
def isSupportedImage (p : FsPath) : Bool :=
  match pathExtension p with
  | some ext => SUPPORTED_EXTENSIONS.contains (lowerStr ext)
  | none => false

/-- One directory-walk entry: a path and whether it is a regular file.
The walk itself is the filesystem collaborator, so the entry list is a
parameter. -/
structure WalkEntry where
  path : FsPath
  isFile : Bool
  deriving DecidableEq, Repr

/-- `get_image_files`: keep the regular files whose lowercased extension
is supported, and return their paths. -/
def get_image_files (entries : List WalkEntry) : List FsPath :=
  ((entries.filter (fun e => e.isFile)).filter
    (fun e => isSupportedImage e.path)).map WalkEntry.path

/-- `filter_already_converted`: walk the candidate list in order; a
candidate whose mapped output path exists is counted as skipped, the
rest are kept for conversion.  `ex` is the filesystem existence check. -/
def filter_already_converted (files : List FsPath)
    (input_dir output_dir : FsPath) (ex : FsPath → Bool) :
    List FsPath × Nat :=
  match files with
  | [] => ([], 0)
  | f :: rest =>
      let r := filter_already_converted rest input_dir output_dir ex
      if ex (get_output_path f input_dir output_dir) then
        (r.1, r.2 + 1)
      else
        (f :: r.1, r.2)

/-- `f64::round`: round half away from zero, on `ℚ`. -/
def rndAway (x : ℚ) : ℤ :=
  if x < 0 then -⌊-x + 1 / 2⌋ else ⌊x + 1 / 2⌋

/-- The savings formula of `convert_image` and the summary: `0` when the
original size is zero, else `(1 - new/orig) * 10000`, `f64`-rounded,
divided by `100`. -/
def savingsPct (original_size new_size : ℕ) : ℚ :=
  if original_size > 0 then
    (rndAway ((1 - (new_size : ℚ) / (original_size : ℚ)) * 10000) : ℚ) / 100
  else 0

/-- Rounding a quantity to two decimal places, as the spec words it. -/
def round2 (x : ℚ) : ℚ := (rndAway (x * 100) : ℚ) / 100

/-- An opaque decoded raster image handle produced by the external
decoder collaborator. -/
structure Img where
  id : ℕ
  deriving DecidableEq, Repr

/-- An opaque WebP encoder handle produced from an image. -/
structure Enc where
  img : Img
  deriving DecidableEq, Repr

/-- The `ConversionResult` record of the source. -/
structure ConversionResult where
  input : String
  output : String
  success : Bool
  message : String
  original_size : ℕ
  new_size : ℕ
  savings : ℚ
  deriving DecidableEq, Repr

/-- The external collaborators `convert_image` calls, as the interface
contracts the spec names: directory creation, stat, decode, encoder
construction, encoding, file write.  Fallible calls return
`Except String`, the error string standing for the formatted OS or
library error. -/
structure FsEnv where
  createDirAll : FsPath → Except String Unit
  metadataLen : FsPath → Except String ℕ
  imageOpen : FsPath → Except String Img
  encoderFromImage : Img → Except String Enc
  encodeWebp : Enc → ℚ → List ℕ
  writeFile : FsPath → List ℕ → Except String Unit

/-- `Path::parent`: drop the file name; none for a root or empty path. -/
def parentPath (p : FsPath) : Option FsPath :=
  match p.comps with
  | [] => none
  | _ :: _ => some ⟨p.abs, p.comps.dropLast⟩

/-- A failed `ConversionResult` as every error branch of `convert_image`
builds it: `success = false`, zero new size, zero savings. -/
def failResult (input output message : String) (original_size : ℕ) :
    ConversionResult :=
  ⟨input, output, false, message, original_size, 0, 0⟩

/-- The stat → decode → encode → write stages of `convert_image`, after
the output directory has been ensured; each step short-circuits to a
failed result carrying its step message. -/
def convertSteps (env : FsEnv) (input_str output_str : String)
    (input_path output_path : FsPath) (quality : ℚ) : ConversionResult :=
  match env.metadataLen input_path with
  | .error e => failResult input_str output_str ("Cannot stat input: " ++ e) 0
  | .ok original_size =>
    match env.imageOpen input_path with
    | .error e =>
        failResult input_str output_str
          ("Failed to load image: " ++ e) original_size
    | .ok img =>
      match env.encoderFromImage img with
      | .error e =>
          failResult input_str output_str
            ("Failed to create encoder: " ++ e) original_size
      | .ok encoder =>
        let webp_data := env.encodeWebp encoder quality
        match env.writeFile output_path webp_data with
        | .error e =>
            failResult input_str output_str
              ("Failed to write output: " ++ e) original_size
        | .ok _ =>
          let new_size := webp_data.length
          ⟨input_str, output_str, true, "Converted successfully",
            original_size, new_size, savingsPct original_size new_size⟩

/-- `convert_image`: compute the output path, create its parent
directory if there is one (a creation error short-circuits with zero
recorded size), then run the stat, decode, encode and write stages. -/
def convert_image (env : FsEnv)
    (input_path input_dir output_dir : FsPath) (quality : ℚ) :
    ConversionResult :=
  let input_str := displayPath input_path
  let output_path := get_output_path input_path input_dir output_dir
  let output_str := displayPath output_path
  match parentPath output_path with
  | none => convertSteps env input_str output_str input_path output_path quality
  | some parent =>
    match env.createDirAll parent with
    | .error e =>
        failResult input_str output_str
          ("Failed to create output dir: " ++ e) 0
    | .ok _ =>
        convertSteps env input_str output_str input_path output_path quality

/-- Whether ensuring the output's parent directory succeeds. -/
def dirOkB (env : FsEnv) (output_path : FsPath) : Bool :=
  match parentPath output_path with
  | none => true
  | some parent =>
    match env.createDirAll parent with
    | .ok _ => true
    | .error _ => false

/-- Whether the stat, decode, encoder-construction and write stages all
succeed. -/
def stepsOkB (env : FsEnv) (input_path output_path : FsPath)
    (quality : ℚ) : Bool :=
  match env.metadataLen input_path with
  | .error _ => false
  | .ok _ =>
    match env.imageOpen input_path with
    | .error _ => false
    | .ok img =>
      match env.encoderFromImage img with
      | .error _ => false
      | .ok encoder =>
        match env.writeFile output_path (env.encodeWebp encoder quality) with
        | .error _ => false
        | .ok _ => true

/-- Whether every pipeline step of `convert_image` succeeds in the given
environment. -/
def pipelineOk (env : FsEnv)
    (input_path input_dir output_dir : FsPath) (quality : ℚ) : Bool :=
  let output_path := get_output_path input_path input_dir output_dir
  dirOkB env output_path && stepsOkB env input_path output_path quality

/-- One `ConversionResult` per task, in task order: the parallel
`for_each` body applied to every filtered file. -/
def run_conversions (env : FsEnv) (files : List FsPath)
    (input_dir output_dir : FsPath) (quality : ℚ) : List ConversionResult :=
  files.map (fun f => convert_image env f input_dir output_dir quality)

/-- The shared atomic counters of `main` (the spec's `RunStats`). -/
structure RunStats where
  completed_count : ℕ
  success_count : ℕ
  failure_count : ℕ
  total_original_bytes : ℕ
  total_new_bytes : ℕ
  deriving DecidableEq, Repr

/-- All-zero counters, as initialised before the parallel loop. -/
def initStats : RunStats := ⟨0, 0, 0, 0, 0⟩

/-- The per-result counter updates of the `for_each` body: bump the
completion counter, then on success bump `successful` and add both byte
sizes, on failure bump `failed` only. -/
def recordResult (s : RunStats) (r : ConversionResult) : RunStats :=
  if r.success then
    { s with
      completed_count := s.completed_count + 1
      success_count := s.success_count + 1
      total_original_bytes := s.total_original_bytes + r.original_size
      total_new_bytes := s.total_new_bytes + r.new_size }
  else
    { s with
      completed_count := s.completed_count + 1
      failure_count := s.failure_count + 1 }

/-- Folding the per-result updates over one completion order of the
results. -/
def aggregate (results : List ConversionResult) : RunStats :=
  results.foldl recordResult initStats

/-- The summary's overall savings: same guarded formula as the per-file
one, applied to the byte totals. -/
def totalSavings (total_original total_new : ℕ) : ℚ :=
  if total_original > 0 then
    (rndAway ((1 - (total_new : ℚ) / (total_original : ℚ)) * 10000) : ℚ) / 100
  else 0

/-- The environment `main` runs in: whether the input directory exists,
whether the output directory can be created, the directory walk's
entries, the existence check used by the skip filter, and the converter
collaborators. -/
structure MainEnv where
  inputIsDir : Bool
  createOutputOk : Bool
  walk : List WalkEntry
  outExists : FsPath → Bool
  fs : FsEnv

/-- What a run observably produces: the process exit code and the
per-task results of the parallel conversion loop. -/
structure MainOutcome where
  exitCode : ℕ
  results : List ConversionResult
  deriving DecidableEq, Repr

/-- The control flow of `main`: exit 1 when the input directory is
missing, exit 1 when the output directory cannot be created, otherwise
scan, filter and convert, returning normally (exit 0) — also when the
scan or the filter leaves nothing to do, and whatever the individual
results are. -/
def runMain (env : MainEnv) (input_dir output_dir : FsPath)
    (quality : ℚ) : MainOutcome :=
  if !env.inputIsDir then ⟨1, []⟩
  else if !env.createOutputOk then ⟨1, []⟩
  else
    let all_files := get_image_files env.walk
    if all_files.length = 0 then ⟨0, []⟩
    else
      let fc := filter_already_converted all_files input_dir output_dir
        env.outExists
      if fc.1.length = 0 then ⟨0, []⟩
      else ⟨0, run_conversions env.fs fc.1 input_dir output_dir quality⟩

/-- Round to the nearest integer, ties to even: the rounding Rust's
fixed-precision float formatting applies to the exact value. -/
def roundHalfEven (x : ℚ) : ℤ :=
  if x - ⌊x⌋ = 1 / 2 then (if ⌊x⌋ % 2 = 0 then ⌊x⌋ else ⌊x⌋ + 1)
  else round x

/-- `format!("{:.1}", x)` for a non-negative quantity: one decimal
digit, correctly rounded. -/
def fmt1 (x : ℚ) : String :=
  let t := (roundHalfEven (x * 10)).toNat
  toString (t / 10) ++ "." ++ toString (t % 10)

/-- `format_duration` over an elapsed time of `d` seconds (a `Duration`
is non-negative; `as_millis` truncates, the `as u64` cast of
`total_secs / 60.0` truncates, `%` is the remainder). -/
def format_duration (d : ℚ) : String :=
  if d < 1 then toString (⌊d * 1000⌋.toNat) ++ "ms"
  else
    let minutes := (⌊d / 60⌋).toNat
    let secs := d - 60 * ((⌊d / 60⌋ : ℤ) : ℚ)
    if minutes > 0 then toString minutes ++ "m " ++ fmt1 secs ++ "s"
    else fmt1 secs ++ "s"


/-! ### Helper lemmas on the extension machinery -/

lemma lastDotAux_append (l₁ l₂ : List Char) (i : ℕ) (acc : Option ℕ) :
    lastDotAux (l₁ ++ l₂) i acc
      = lastDotAux l₂ (i + l₁.length) (lastDotAux l₁ i acc) := by
  induction l₁ generalizing i acc with
  | nil => simp [lastDotAux]
  | cons c cs ih =>
      simp only [List.cons_append, lastDotAux]
      rw [List.append_eq, ih]
      have hidx : i + 1 + cs.length = i + (cs.length + 1) := by omega
      rw [hidx, List.length_cons]

lemma lastDotAux_no_dot (l : List Char) (h : '.' ∉ l) (i : ℕ)
    (acc : Option ℕ) : lastDotAux l i acc = acc := by
  induction l generalizing i acc with
  | nil => rfl
  | cons c cs ih =>
      simp only [List.mem_cons, not_or] at h
      have hc : ¬(c = '.') := fun hce => h.1 hce.symm
      show lastDotAux cs (i + 1) (if c = '.' then some i else acc) = acc
      rw [if_neg hc]
      exact ih h.2 _ _

lemma lastDotAux_dot_head (w : List Char) (hw : '.' ∉ w) (n : ℕ)
    (acc : Option ℕ) : lastDotAux ('.' :: w) n acc = some n := by
  show lastDotAux w (n + 1) (if '.' = '.' then some n else acc) = some n
  rw [if_pos rfl, lastDotAux_no_dot _ hw]

lemma lastDotAux_webp_tail (cs : List Char) :
    lastDotAux (cs ++ '.' :: ['w', 'e', 'b', 'p']) 0 none = some cs.length := by
  rw [lastDotAux_append, lastDotAux_dot_head _ (by decide)]
  simp

lemma extOfName_of_data (s : String) (cs : List Char) (h : cs ≠ [])
    (hd : s.toList = cs ++ '.' :: ['w', 'e', 'b', 'p']) :
    extOfName s = some "webp" := by
  unfold extOfName
  rw [hd, lastDotAux_webp_tail]
  obtain ⟨a, as, rfl⟩ := List.exists_cons_of_ne_nil h
  show some (String.mk (((a :: as) ++ '.' :: ['w', 'e', 'b', 'p']).drop
    ((a :: as).length + 1))) = some "webp"
  have hdrop : ((a :: as) ++ '.' :: ['w', 'e', 'b', 'p']).drop
      ((a :: as).length + 1) = ['w', 'e', 'b', 'p'] := by
    have h1 : (a :: as) ++ '.' :: ['w', 'e', 'b', 'p']
        = ((a :: as) ++ ['.']) ++ ['w', 'e', 'b', 'p'] := by simp
    have h2 : (a :: as).length + 1 = ((a :: as) ++ ['.']).length := by simp
    rw [h1, h2, List.drop_left]
  rw [hdrop]

lemma extOfName_setExtCore (name : String) (h : name.toList ≠ []) :
    extOfName (setExtCore name "webp") = some "webp" := by
  unfold setExtCore
  cases hdot : lastDotAux name.toList 0 none with
  | none =>
      apply extOfName_of_data _ name.toList h
      have hl : (name ++ "." ++ "webp").toList
          = (name.toList ++ ['.']) ++ ['w', 'e', 'b', 'p'] := rfl
      rw [hl, List.append_assoc]
      rfl
  | some i =>
      cases i with
      | zero =>
          apply extOfName_of_data _ name.toList h
          have hl : (name ++ "." ++ "webp").toList
              = (name.toList ++ ['.']) ++ ['w', 'e', 'b', 'p'] := rfl
          rw [hl, List.append_assoc]
          rfl
      | succ j =>
          show extOfName (String.mk (name.toList.take (j + 1)) ++ "." ++ "webp")
            = some "webp"
          apply extOfName_of_data _ (name.toList.take (j + 1))
          · simp only [ne_eq, List.take_eq_nil_iff]
            simp only [Nat.succ_ne_zero, false_or]
            exact h
          · have hl : (String.mk (name.toList.take (j + 1)) ++ "." ++ "webp").toList
                = (name.toList.take (j + 1) ++ ['.']) ++ ['w', 'e', 'b', 'p'] := rfl
            rw [hl, List.append_assoc]
            rfl

lemma setExtComps_ne_nil (l : List String) (e : String) (h : l ≠ []) :
    setExtComps l e ≠ [] := by
  match l with
  | [] => exact absurd rfl h
  | [c] => simp [setExtComps]
  | c :: c2 :: rest => simp [setExtComps]

lemma getLast?_setExtComps (l : List String) (e : String) :
    (setExtComps l e).getLast? = l.getLast?.map (fun c => setExtCore c e) := by
  induction l with
  | nil => rfl
  | cons c rest ih =>
      cases rest with
      | nil => rfl
      | cons c2 rest2 =>
          have hne := setExtComps_ne_nil (c2 :: rest2) e (by simp)
          obtain ⟨d, ds, hds⟩ := List.exists_cons_of_ne_nil hne
          show (c :: setExtComps (c2 :: rest2) e).getLast? = _
          rw [hds, List.getLast?_cons_cons, ← hds, ih, List.getLast?_cons_cons]

/-- C2: the mapped output path is `join(output_dir, rel)` with the
extension set to `webp`, where `rel` is the stripped relative path when
`input_path` lies under `input_dir` and `input_path` itself otherwise
(the total fallback); and the mapped path's file name really carries the
`webp` extension. -/
theorem get_output_path_mapping (ip id od : FsPath) :
    (∀ r, stripPathOf ip id = some r →
      get_output_path ip id od = setExtPath (joinP od r) "webp") ∧
    (stripPathOf ip id = none →
      get_output_path ip id od = setExtPath (joinP od ip) "webp") ∧
    (∀ c, (joinP od ((stripPathOf ip id).getD ip)).comps.getLast? = some c →
      c.toList ≠ [] →
      pathExtension (get_output_path ip id od) = some "webp") := by
  refine ⟨fun r hr => ?_, fun hn => ?_, fun c hc hne => ?_⟩
  · unfold get_output_path
    rw [hr]
    rfl
  · unfold get_output_path
    rw [hn]
    rfl
  · unfold get_output_path pathExtension
    show ((setExtPath (joinP od ((stripPathOf ip id).getD ip)) "webp").comps.getLast?).bind
      extOfName = some "webp"
    unfold setExtPath
    rw [getLast?_setExtComps, hc]
    show extOfName (setExtCore c "webp") = some "webp"
    exact extOfName_setExtCore c hne

theorem get_output_path_mapping_witness :
    get_output_path ⟨true, ["data", "a", "b.png"]⟩ ⟨true, ["data"]⟩
        ⟨true, ["out"]⟩
      = setExtPath (joinP ⟨true, ["out"]⟩ ⟨false, ["a", "b.png"]⟩) "webp" ∧
    get_output_path ⟨false, ["q", "c.gif"]⟩ ⟨true, ["data"]⟩ ⟨true, ["out"]⟩
      = setExtPath (joinP ⟨true, ["out"]⟩ ⟨false, ["q", "c.gif"]⟩) "webp" ∧
    pathExtension (get_output_path ⟨true, ["data", "a", "b.png"]⟩
      ⟨true, ["data"]⟩ ⟨true, ["out"]⟩) = some "webp" :=
  ⟨(get_output_path_mapping _ _ _).1 _ (by decide),
   (get_output_path_mapping _ _ _).2.1 (by decide),
   (get_output_path_mapping _ _ _).2.2 "b.png" (by decide) (by decide)⟩

/-- C10: for an absolute input path that is not under the input
directory, the fallback joins the absolute path onto the output
directory, which yields the absolute path itself — so the result is the
input path with its extension set to `webp`, independent of the output
directory. -/
theorem get_output_path_absolute_escape (ip id od od₂ : FsPath)
    (habs : ip.abs = true) (hstrip : stripPathOf ip id = none) :
    get_output_path ip id od = setExtPath ip "webp" ∧
    get_output_path ip id od = get_output_path ip id od₂ := by
  have h1 : ∀ o : FsPath, get_output_path ip id o = setExtPath ip "webp" := by
    intro o
    unfold get_output_path
    rw [hstrip]
    simp [Option.getD, joinP, habs]
  exact ⟨h1 od, (h1 od).trans (h1 od₂).symm⟩

theorem get_output_path_absolute_escape_witness :
    get_output_path ⟨true, ["etc", "x.png"]⟩ ⟨true, ["data"]⟩ ⟨true, ["out"]⟩
      = setExtPath ⟨true, ["etc", "x.png"]⟩ "webp" ∧
    get_output_path ⟨true, ["etc", "x.png"]⟩ ⟨true, ["data"]⟩ ⟨true, ["out"]⟩
      = get_output_path ⟨true, ["etc", "x.png"]⟩ ⟨true, ["data"]⟩
          ⟨false, ["elsewhere"]⟩ :=
  get_output_path_absolute_escape _ _ _ _ rfl (by decide)

/-! ### Filter and scanner -/

lemma filter_already_converted_closed (files : List FsPath)
    (id od : FsPath) (ex : FsPath → Bool) :
    (filter_already_converted files id od ex).1
      = files.filter (fun f => !(ex (get_output_path f id od))) ∧
    (filter_already_converted files id od ex).2
      = files.countP (fun f => ex (get_output_path f id od)) := by
  induction files with
  | nil => exact ⟨rfl, rfl⟩
  | cons f rest ih =>
      by_cases hf : ex (get_output_path f id od) = true
      · simp [filter_already_converted, hf, List.filter_cons,
          List.countP_cons, ih.1, ih.2]
      · simp only [Bool.not_eq_true] at hf
        simp [filter_already_converted, hf, List.filter_cons,
          List.countP_cons, ih.1, ih.2]

lemma countP_add_length_filter_not {α : Type} (p : α → Bool) (l : List α) :
    l.countP p + (l.filter (fun a => !(p a))).length = l.length := by
  induction l with
  | nil => rfl
  | cons a l ih =>
      by_cases h : p a = true <;>
        simp [List.countP_cons, List.filter_cons, h] <;> omega

/-- C5: the skip filter partitions the candidate list — the kept set is
exactly the candidates whose mapped output does not exist, the skipped
count is exactly the number whose mapped output exists, the two add up
to the number of candidates, and no kept candidate has an existing
output. -/
theorem filter_already_converted_partition (files : List FsPath)
    (id od : FsPath) (ex : FsPath → Bool) :
    (filter_already_converted files id od ex).1
      = files.filter (fun f => !(ex (get_output_path f id od))) ∧
    (filter_already_converted files id od ex).2
      = files.countP (fun f => ex (get_output_path f id od)) ∧
    (filter_already_converted files id od ex).2
        + (filter_already_converted files id od ex).1.length
      = files.length ∧
    (∀ f, f ∈ (filter_already_converted files id od ex).1 →
      ex (get_output_path f id od) = false) := by
  obtain ⟨h1, h2⟩ := filter_already_converted_closed files id od ex
  refine ⟨h1, h2, ?_, ?_⟩
  · rw [h1, h2]
    exact countP_add_length_filter_not _ files
  · intro f hf
    rw [h1] at hf
    have := List.of_mem_filter hf
    simpa using this

/-- Sample existence check for the skip-filter witness: exactly the
first candidate's mapped output exists. -/
def exSample : FsPath → Bool :=
  fun p => decide (p = ⟨true, ["out", "a.webp"]⟩)

/-- Sample candidate list for the skip-filter witness. -/
def filesSample : List FsPath :=
  [⟨true, ["data", "a.jpg"]⟩, ⟨true, ["data", "b.jpg"]⟩]

theorem filter_already_converted_partition_witness :
    (filter_already_converted filesSample ⟨true, ["data"]⟩ ⟨true, ["out"]⟩
        exSample).2
      + (filter_already_converted filesSample ⟨true, ["data"]⟩
        ⟨true, ["out"]⟩ exSample).1.length = 2 ∧
    exSample (get_output_path ⟨true, ["data", "b.jpg"]⟩ ⟨true, ["data"]⟩
      ⟨true, ["out"]⟩) = false := by
  constructor
  · exact (filter_already_converted_partition filesSample ⟨true, ["data"]⟩
      ⟨true, ["out"]⟩ exSample).2.2.1
  · exact (filter_already_converted_partition filesSample ⟨true, ["data"]⟩
      ⟨true, ["out"]⟩ exSample).2.2.2 ⟨true, ["data", "b.jpg"]⟩ (by decide)

lemma isSupportedImage_iff (p : FsPath) :
    isSupportedImage p = true ↔
      ∃ x, pathExtension p = some x ∧ lowerStr x ∈ SUPPORTED_EXTENSIONS := by
  unfold isSupportedImage
  cases hx : pathExtension p with
  | none => simp
  | some x => simp [List.contains, hx]

/-- C6: under a duplicate-free directory walk, a path is in the scan
output exactly when some walk entry is a regular file at that path whose
lowercased extension is in the supported set — so extensionless files
and unsupported extensions never appear — and the output lists each such
path exactly once. -/
theorem get_image_files_spec (entries : List WalkEntry)
    (hnd : (entries.map WalkEntry.path).Nodup) :
    (∀ p, p ∈ get_image_files entries ↔
      (∃ e ∈ entries, e.path = p ∧ e.isFile = true) ∧
      (∃ x, pathExtension p = some x ∧ lowerStr x ∈ SUPPORTED_EXTENSIONS)) ∧
    (get_image_files entries).Nodup := by
  constructor
  · intro p
    unfold get_image_files
    simp only [List.mem_map, List.mem_filter]
    constructor
    · rintro ⟨e, ⟨⟨he, hf⟩, hs⟩, rfl⟩
      exact ⟨⟨e, he, rfl, hf⟩, (isSupportedImage_iff e.path).1 hs⟩
    · rintro ⟨⟨e, he, rfl, hf⟩, hs⟩
      exact ⟨e, ⟨⟨he, hf⟩, (isSupportedImage_iff e.path).2 hs⟩, rfl⟩
  · have hs : List.Sublist ((entries.filter (fun e => e.isFile)).filter
        (fun e => isSupportedImage e.path)) entries :=
      (List.filter_sublist _).trans (List.filter_sublist _)
    exact List.Nodup.sublist (hs.map WalkEntry.path) hnd

/-- Sample walk for the scanner witness: a supported image (uppercase
extension), a text file, and a directory. -/
def entriesSample : List WalkEntry :=
  [⟨⟨true, ["data", "a.JPG"]⟩, true⟩, ⟨⟨true, ["data", "n.txt"]⟩, true⟩,
   ⟨⟨true, ["data", "sub"]⟩, false⟩]

theorem get_image_files_spec_witness :
    (⟨true, ["data", "a.JPG"]⟩ : FsPath) ∈ get_image_files entriesSample ∧
    (get_image_files entriesSample).Nodup := by
  have h := get_image_files_spec entriesSample (by decide)
  refine ⟨(h.1 _).2 ⟨⟨⟨⟨true, ["data", "a.JPG"]⟩, true⟩, by decide, rfl, rfl⟩,
    "JPG", by decide, by decide⟩, h.2⟩

/-! ### Converter -/

lemma convertSteps_success (env : FsEnv) (istr ostr : String)
    (ip op : FsPath) (q : ℚ) :
    (convertSteps env istr ostr ip op q).success = stepsOkB env ip op q := by
  cases hm : env.metadataLen ip with
  | error e => simp [convertSteps, stepsOkB, hm, failResult]
  | ok n =>
    cases ho : env.imageOpen ip with
    | error e => simp [convertSteps, stepsOkB, hm, ho, failResult]
    | ok img =>
      cases he : env.encoderFromImage img with
      | error e => simp [convertSteps, stepsOkB, hm, ho, he, failResult]
      | ok enc =>
        cases hw : env.writeFile op (env.encodeWebp enc q) with
        | error e => simp [convertSteps, stepsOkB, hm, ho, he, hw, failResult]
        | ok u => simp [convertSteps, stepsOkB, hm, ho, he, hw]

lemma convertSteps_fields (env : FsEnv) (istr ostr : String)
    (ip op : FsPath) (q : ℚ) :
    (convertSteps env istr ostr ip op q).input = istr ∧
    (convertSteps env istr ostr ip op q).output = ostr := by
  cases hm : env.metadataLen ip with
  | error e => simp [convertSteps, hm, failResult]
  | ok n =>
    cases ho : env.imageOpen ip with
    | error e => simp [convertSteps, hm, ho, failResult]
    | ok img =>
      cases he : env.encoderFromImage img with
      | error e => simp [convertSteps, hm, ho, he, failResult]
      | ok enc =>
        cases hw : env.writeFile op (env.encodeWebp enc q) with
        | error e => simp [convertSteps, hm, ho, he, hw, failResult]
        | ok u => simp [convertSteps, hm, ho, he, hw]

lemma convert_image_success (env : FsEnv) (ip id od : FsPath) (q : ℚ) :
    (convert_image env ip id od q).success = pipelineOk env ip id od q := by
  cases hp : parentPath (get_output_path ip id od) with
  | none => simp [convert_image, pipelineOk, dirOkB, hp, convertSteps_success]
  | some par =>
    cases hc : env.createDirAll par with
    | error e => simp [convert_image, pipelineOk, dirOkB, hp, hc, failResult]
    | ok u => simp [convert_image, pipelineOk, dirOkB, hp, hc,
        convertSteps_success]

lemma convert_image_fields (env : FsEnv) (ip id od : FsPath) (q : ℚ) :
    (convert_image env ip id od q).input = displayPath ip ∧
    (convert_image env ip id od q).output
      = displayPath (get_output_path ip id od) := by
  have hcf := convertSteps_fields env (displayPath ip)
    (displayPath (get_output_path ip id od)) ip (get_output_path ip id od) q
  cases hp : parentPath (get_output_path ip id od) with
  | none => simp [convert_image, hp, hcf.1, hcf.2]
  | some par =>
    cases hc : env.createDirAll par with
    | error e => simp [convert_image, hp, hc, failResult]
    | ok u => simp [convert_image, hp, hc, hcf.1, hcf.2]

/-- C1: the parallel loop yields exactly one result per dispatched task
(one list entry per file, in correspondence), and the per-task function
is total with its error branches as the only exits: it always returns a
`ConversionResult`, successful exactly when every pipeline step
succeeds. -/
theorem convert_image_total (env : FsEnv) (files : List FsPath)
    (id od : FsPath) (q : ℚ) :
    (run_conversions env files id od q).length = files.length ∧
    (∀ i : ℕ, (run_conversions env files id od q)[i]?
      = (files[i]?).map (fun f => convert_image env f id od q)) ∧
    (∀ ip, (convert_image env ip id od q).success
      = pipelineOk env ip id od q) := by
  refine ⟨by simp [run_conversions], fun i => ?_,
    fun ip => convert_image_success env ip id od q⟩
  simp [run_conversions]

lemma convertSteps_failure_message (env : FsEnv) (istr ostr : String)
    (ip op : FsPath) (q : ℚ)
    (hs : (convertSteps env istr ostr ip op q).success = false) :
    ∃ e, (convertSteps env istr ostr ip op q).message
          = "Cannot stat input: " ++ e ∨
        (convertSteps env istr ostr ip op q).message
          = "Failed to load image: " ++ e ∨
        (convertSteps env istr ostr ip op q).message
          = "Failed to create encoder: " ++ e ∨
        (convertSteps env istr ostr ip op q).message
          = "Failed to write output: " ++ e := by
  cases hm : env.metadataLen ip with
  | error e => exact ⟨e, Or.inl (by simp [convertSteps, hm, failResult])⟩
  | ok n =>
    cases ho : env.imageOpen ip with
    | error e =>
        exact ⟨e, Or.inr (Or.inl (by simp [convertSteps, hm, ho, failResult]))⟩
    | ok img =>
      cases he : env.encoderFromImage img with
      | error e =>
          exact ⟨e, Or.inr (Or.inr (Or.inl
            (by simp [convertSteps, hm, ho, he, failResult])))⟩
      | ok enc =>
        cases hw : env.writeFile op (env.encodeWebp enc q) with
        | error e =>
            exact ⟨e, Or.inr (Or.inr (Or.inr
              (by simp [convertSteps, hm, ho, he, hw, failResult])))⟩
        | ok u =>
            rw [convertSteps_success] at hs
            simp [stepsOkB, hm, ho, he, hw] at hs

lemma convert_image_failure_message (env : FsEnv) (ip id od : FsPath)
    (q : ℚ)
    (hs : (convert_image env ip id od q).success = false) :
    ∃ e, (convert_image env ip id od q).message
          = "Failed to create output dir: " ++ e ∨
        (convert_image env ip id od q).message
          = "Cannot stat input: " ++ e ∨
        (convert_image env ip id od q).message
          = "Failed to load image: " ++ e ∨
        (convert_image env ip id od q).message
          = "Failed to create encoder: " ++ e ∨
        (convert_image env ip id od q).message
          = "Failed to write output: " ++ e := by
  cases hp : parentPath (get_output_path ip id od) with
  | none =>
      simp only [convert_image, hp] at hs ⊢
      obtain ⟨e, h⟩ := convertSteps_failure_message env _ _ ip _ q hs
      exact ⟨e, Or.inr h⟩
  | some par =>
    cases hc : env.createDirAll par with
    | error e =>
        refine ⟨e, Or.inl ?_⟩
        simp [convert_image, hp, hc, failResult]
    | ok u =>
        simp only [convert_image, hp, hc] at hs ⊢
        obtain ⟨e, h⟩ := convertSteps_failure_message env _ _ ip _ q hs
        exact ⟨e, Or.inr h⟩

lemma convertSteps_decode_failure (env : FsEnv) (istr ostr : String)
    (ip op : FsPath) (q : ℚ) (n : ℕ) (e : String)
    (hm : env.metadataLen ip = .ok n)
    (ho : env.imageOpen ip = .error e) :
    convertSteps env istr ostr ip op q
      = failResult istr ostr ("Failed to load image: " ++ e) n := by
  simp [convertSteps, hm, ho]

lemma convert_image_decode_failure (env : FsEnv) (ip id od : FsPath)
    (q : ℚ) (n : ℕ) (e : String)
    (hdir : dirOkB env (get_output_path ip id od) = true)
    (hm : env.metadataLen ip = .ok n)
    (ho : env.imageOpen ip = .error e) :
    convert_image env ip id od q
      = failResult (displayPath ip) (displayPath (get_output_path ip id od))
          ("Failed to load image: " ++ e) n := by
  cases hp : parentPath (get_output_path ip id od) with
  | none =>
      simp only [convert_image, hp]
      exact convertSteps_decode_failure env _ _ ip _ q n e hm ho
  | some par =>
    cases hc : env.createDirAll par with
    | error e2 =>
        exfalso
        simp [dirOkB, hp, hc] at hdir
    | ok u =>
        simp only [convert_image, hp, hc]
        exact convertSteps_decode_failure env _ _ ip _ q n e hm ho

/-- C7: every result of `convert_image` carries the computed input and
output path strings; a failed result's message identifies the failing
step by one of the five step prefixes; and on a decode failure the
result still records the size obtained from the earlier stat. -/
theorem convert_image_failure_reporting (env : FsEnv) (ip id od : FsPath)
    (q : ℚ) :
    (convert_image env ip id od q).input = displayPath ip ∧
    (convert_image env ip id od q).output
      = displayPath (get_output_path ip id od) ∧
    ((convert_image env ip id od q).success = false →
      ∃ e, (convert_image env ip id od q).message
            = "Failed to create output dir: " ++ e ∨
          (convert_image env ip id od q).message
            = "Cannot stat input: " ++ e ∨
          (convert_image env ip id od q).message
            = "Failed to load image: " ++ e ∨
          (convert_image env ip id od q).message
            = "Failed to create encoder: " ++ e ∨
          (convert_image env ip id od q).message
            = "Failed to write output: " ++ e) ∧
    (∀ n e, dirOkB env (get_output_path ip id od) = true →
      env.metadataLen ip = .ok n → env.imageOpen ip = .error e →
      (convert_image env ip id od q).success = false ∧
      (convert_image env ip id od q).message
        = "Failed to load image: " ++ e ∧
      (convert_image env ip id od q).original_size = n) := by
  refine ⟨(convert_image_fields env ip id od q).1,
    (convert_image_fields env ip id od q).2,
    convert_image_failure_message env ip id od q,
    fun n e hdir hm ho => ?_⟩
  rw [convert_image_decode_failure env ip id od q n e hdir hm ho]
  exact ⟨rfl, rfl, rfl⟩

/-- Environment for the decode-failure witness: stat succeeds with size
1234, the decoder rejects the file, everything else succeeds. -/
def envDecodeFail : FsEnv where
  createDirAll := fun _ => .ok ()
  metadataLen := fun _ => .ok 1234
  imageOpen := fun _ => .error "bad magic"
  encoderFromImage := fun i => .ok ⟨i⟩
  encodeWebp := fun _ _ => [0]
  writeFile := fun _ _ => .ok ()

theorem convert_image_failure_reporting_witness :
    (convert_image envDecodeFail ⟨true, ["data", "a.jpg"]⟩ ⟨true, ["data"]⟩
      ⟨true, ["out"]⟩ 80).success = false ∧
    (convert_image envDecodeFail ⟨true, ["data", "a.jpg"]⟩ ⟨true, ["data"]⟩
      ⟨true, ["out"]⟩ 80).message = "Failed to load image: bad magic" ∧
    (convert_image envDecodeFail ⟨true, ["data", "a.jpg"]⟩ ⟨true, ["data"]⟩
      ⟨true, ["out"]⟩ 80).original_size = 1234 :=
  (convert_image_failure_reporting envDecodeFail ⟨true, ["data", "a.jpg"]⟩
    ⟨true, ["data"]⟩ ⟨true, ["out"]⟩ 80).2.2.2 1234 "bad magic" rfl rfl rfl

/-! ### Aggregation -/

lemma countP_add_countP_not {α : Type} (p : α → Bool) (l : List α) :
    l.countP p + l.countP (fun a => !(p a)) = l.length := by
  induction l with
  | nil => rfl
  | cons a l ih =>
      by_cases h : p a = true <;> simp [List.countP_cons, h] <;> omega

lemma foldl_recordResult (s : RunStats) (rs : List ConversionResult) :
    rs.foldl recordResult s
      = ⟨s.completed_count + rs.length,
        s.success_count + rs.countP (fun r => r.success),
        s.failure_count + rs.countP (fun r => !r.success),
        s.total_original_bytes
          + ((rs.filter (fun r => r.success)).map
              (fun r => r.original_size)).sum,
        s.total_new_bytes
          + ((rs.filter (fun r => r.success)).map
              (fun r => r.new_size)).sum⟩ := by
  induction rs generalizing s with
  | nil => simp
  | cons r rest ih =>
      rw [List.foldl_cons, ih]
      by_cases hr : r.success = true
      · simp [recordResult, hr, List.countP_cons, List.filter_cons,
          RunStats.mk.injEq]
        refine ⟨by omega, by omega, by omega, by omega⟩
      · simp only [Bool.not_eq_true] at hr
        simp [recordResult, hr, List.countP_cons, List.filter_cons,
          RunStats.mk.injEq]
        and_intros <;> omega

lemma aggregate_closed (results : List ConversionResult) :
    aggregate results
      = ⟨results.length,
        results.countP (fun r => r.success),
        results.countP (fun r => !r.success),
        ((results.filter (fun r => r.success)).map
          (fun r => r.original_size)).sum,
        ((results.filter (fun r => r.success)).map
          (fun r => r.new_size)).sum⟩ := by
  unfold aggregate
  rw [foldl_recordResult]
  simp [initStats]

/-- C3: over any completion order of the per-task results, the final
counters satisfy `success + failure = number of tasks`, each result
bumps exactly one of the two counters, and the byte totals are the sums
of the sizes over exactly the successful results; the aggregate is
invariant under permutation of the completion order. -/
theorem run_stats_aggregation (results : List ConversionResult) :
    (aggregate results).success_count + (aggregate results).failure_count
      = results.length ∧
    (aggregate results).completed_count = results.length ∧
    (aggregate results).total_original_bytes
      = ((results.filter (fun r => r.success)).map
          (fun r => r.original_size)).sum ∧
    (aggregate results).total_new_bytes
      = ((results.filter (fun r => r.success)).map
          (fun r => r.new_size)).sum ∧
    (∀ s r, (recordResult s r).success_count
        + (recordResult s r).failure_count
      = s.success_count + s.failure_count + 1) ∧
    (∀ other, List.Perm results other →
      aggregate results = aggregate other) := by
  refine ⟨?_, ?_, ?_, ?_, fun s r => ?_, fun other hperm => ?_⟩
  · rw [aggregate_closed]
    exact countP_add_countP_not (fun r => r.success) results
  · rw [aggregate_closed]
  · rw [aggregate_closed]
  · rw [aggregate_closed]
  · by_cases hr : r.success = true <;> simp [recordResult, hr] <;> omega
  · rw [aggregate_closed, aggregate_closed]
    have h1 := hperm.length_eq
    have h2 := hperm.countP_eq (fun r => r.success)
    have h3 := hperm.countP_eq (fun r => !r.success)
    have h4 := List.Perm.sum_eq
      ((hperm.filter (fun r => r.success)).map (fun r => r.original_size))
    have h5 := List.Perm.sum_eq
      ((hperm.filter (fun r => r.success)).map (fun r => r.new_size))
    simp [RunStats.mk.injEq, h1, h2, h3, h4, h5]

/-- A successful and a failed result for the aggregation witness. -/
def resOkSample : ConversionResult :=
  ⟨"/data/a.jpg", "/out/a.webp", true, "Converted successfully",
    1000, 500, 50⟩

/-- A failed result for the aggregation witness. -/
def resFailSample : ConversionResult :=
  ⟨"/data/b.jpg", "/out/b.webp", false, "Failed to load image: bad",
    700, 0, 0⟩

theorem run_stats_aggregation_witness :
    (aggregate [resOkSample, resFailSample]).success_count
        + (aggregate [resOkSample, resFailSample]).failure_count = 2 ∧
    aggregate [resOkSample, resFailSample]
      = aggregate [resFailSample, resOkSample] :=
  ⟨(run_stats_aggregation [resOkSample, resFailSample]).1,
   (run_stats_aggregation [resOkSample, resFailSample]).2.2.2.2.2
     [resFailSample, resOkSample]
     (List.Perm.swap resFailSample resOkSample [])⟩

/-! ### Savings -/

/-- C4: the savings computation returns `0` when the original size is
zero and otherwise `(1 - new/original) * 100` rounded to two decimal
places; the summary's overall savings uses the same formula; and
`1000 → 500` gives exactly `50`. -/
theorem savings_formula (o n : ℕ) :
    savingsPct o n
      = (if o = 0 then 0 else round2 ((1 - (n : ℚ) / (o : ℚ)) * 100)) ∧
    totalSavings o n = savingsPct o n ∧
    savingsPct 1000 500 = 50 ∧
    savingsPct 0 n = 0 := by
  refine ⟨?_, rfl, ?_, by simp [savingsPct]⟩
  · by_cases h : o = 0
    · simp [savingsPct, h]
    · have hpos : 0 < o := Nat.pos_of_ne_zero h
      rw [savingsPct, if_pos hpos, round2, if_neg h]
      congr 2
      ring_nf
  · have h : ((1 : ℚ) - (500 : ℕ) / (1000 : ℕ)) * 10000 = 5000 := by norm_num
    rw [savingsPct, if_pos (by norm_num), rndAway, h]
    norm_num

/-! ### Process exit behaviour -/

/-- C8: the run exits non-zero only for a missing input directory or a
failed output-directory creation, and then without converting anything;
whenever both directory checks pass the exit code is zero — whatever the
individual conversion results are. -/
theorem main_exit_behavior (env : MainEnv) (id od : FsPath) (q : ℚ) :
    ((runMain env id od q).exitCode ≠ 0 →
      (runMain env id od q).results = [] ∧
      (env.inputIsDir = false ∨ env.createOutputOk = false)) ∧
    (env.inputIsDir = true → env.createOutputOk = true →
      (runMain env id od q).exitCode = 0) ∧
    (env.inputIsDir = false →
      (runMain env id od q).exitCode = 1 ∧
      (runMain env id od q).results = []) ∧
    (env.inputIsDir = true → env.createOutputOk = false →
      (runMain env id od q).exitCode = 1 ∧
      (runMain env id od q).results = []) := by
  cases hdir : env.inputIsDir with
  | false => simp [runMain, hdir]
  | true =>
    cases hout : env.createOutputOk with
    | false => simp [runMain, hdir, hout]
    | true =>
        have hz : (runMain env id od q).exitCode = 0 := by
          simp only [runMain, hdir, hout, Bool.not_true, Bool.false_eq_true,
            if_false]
          by_cases h1 : (get_image_files env.walk).length = 0
          · simp [h1]
          · simp only [h1, if_false]
            by_cases h2 : (filter_already_converted (get_image_files env.walk)
                id od env.outExists).1.length = 0
            · simp [h2]
            · simp [h2]
        refine ⟨fun hne => absurd hz hne, fun _ _ => hz,
          fun h => absurd h (by decide), fun _ h => absurd h (by decide)⟩

/-- Walk entries for the exit-code witness: one image candidate. -/
def walkMain : List WalkEntry := [⟨⟨true, ["data", "c.png"]⟩, true⟩]

/-- Converter collaborators for the exit-code witness: the stat step
fails, so the single conversion fails. -/
def fsMainFail : FsEnv where
  createDirAll := fun _ => .ok ()
  metadataLen := fun _ => .error "no such file"
  imageOpen := fun _ => .error "no"
  encoderFromImage := fun i => .ok ⟨i⟩
  encodeWebp := fun _ _ => []
  writeFile := fun _ _ => .ok ()

/-- Main environment for the exit-code witness: both directory checks
pass, the only dispatched conversion fails. -/
def envMain : MainEnv := ⟨true, true, walkMain, fun _ => false, fsMainFail⟩

theorem main_exit_behavior_witness :
    (runMain envMain ⟨true, ["data"]⟩ ⟨true, ["out"]⟩ 80).exitCode = 0 :=
  (main_exit_behavior envMain ⟨true, ["data"]⟩ ⟨true, ["out"]⟩ 80).2.1 rfl rfl

/-! ### Duration formatting -/

/-- C9: `format_duration` renders milliseconds below one second, seconds
with one decimal from one second up to a minute, and whole minutes plus
the remaining seconds from a minute on. -/
theorem format_duration_spec (d : ℚ) (h0 : 0 ≤ d) :
    (d < 1 → format_duration d = toString (⌊d * 1000⌋.toNat) ++ "ms") ∧
    (1 ≤ d → d < 60 → format_duration d = fmt1 d ++ "s") ∧
    (60 ≤ d → format_duration d
      = toString (⌊d / 60⌋.toNat) ++ "m "
        ++ fmt1 (d - 60 * ((⌊d / 60⌋ : ℤ) : ℚ)) ++ "s") := by
  refine ⟨fun h1 => ?_, fun h1 h2 => ?_, fun h60 => ?_⟩
  · rw [format_duration, if_pos h1]
  · have hfl : ⌊d / 60⌋ = 0 := by
      rw [Int.floor_eq_zero_iff, Set.mem_Ico]
      constructor
      · exact div_nonneg h0 (by norm_num)
      · rw [div_lt_one (by norm_num)]
        linarith
    rw [format_duration, if_neg (not_lt.mpr h1)]
    simp [hfl]
  · have hpos : (1 : ℤ) ≤ ⌊d / 60⌋ := by
      rw [Int.le_floor]
      rw [le_div_iff₀ (by norm_num : (0 : ℚ) < 60)]
      push_cast
      linarith
    have hnpos : 0 < (⌊d / 60⌋).toNat := by omega
    rw [format_duration, if_neg (not_lt.mpr (by linarith))]
    simp only [gt_iff_lt, hnpos, if_pos]

theorem format_duration_spec_witness :
    format_duration (1 / 4) = "250ms" ∧
    format_duration (453 / 10) = "45.3s" ∧
    format_duration 125 = "2m 5.0s" := by
  refine ⟨?_, ?_, ?_⟩
  · rw [(format_duration_spec (1 / 4) (by norm_num)).1 (by norm_num)]
    norm_num
    rfl
  · rw [(format_duration_spec (453 / 10) (by norm_num)).2.1 (by norm_num)
      (by norm_num)]
    norm_num [fmt1, roundHalfEven]
    rfl
  · rw [(format_duration_spec 125 (by norm_num)).2.2 (by norm_num)]
    have h60 : ⌊(125 : ℚ) / 60⌋ = 2 := by
      rw [Int.floor_eq_iff]
      constructor <;> norm_num
    rw [h60]
    norm_num [fmt1, roundHalfEven]
    rfl
